import Mathlib

/-!
Shallow embedding of the Pokemon catalog service (`src/index.js`).

The record store (MongoDB via Mongoose) is modelled as a `List Pokemon` in
natural (insertion) order.  Each route handler becomes a pure function from
the store and the request's raw query parameters (`Option String`, `none`
meaning the parameter is absent) to its response.  JavaScript's loose
number parsing (`parseInt`, `Number`) is modelled explicitly on the
character list of the parameter, and the store's pattern matcher
(`$regex` with option `i`) is modelled by a small executable matcher for
the fragment of the pattern language the claims exercise.
-/

/-- Characters of a string with surrounding whitespace removed, as JS
`String.prototype.trim` does before numeric conversion. -/
def trimChars (l : List Char) : List Char :=
  ((l.dropWhile Char.isWhitespace).reverse.dropWhile Char.isWhitespace).reverse

/-- Decimal value of a digit list (most significant first). -/
def digitsVal (ds : List Char) : Nat :=
  ds.foldl (fun acc c => acc * 10 + (c.toNat - 48)) 0

/-- Split an optional leading sign off a character list. -/
def signSplit : List Char → Int × List Char
  | '-' :: rest => (-1, rest)
  | '+' :: rest => (1, rest)
  | l => (1, l)

/-- JS `parseInt(s)` in base 10: skip leading whitespace, read an optional
sign and then the longest leading run of decimal digits, ignoring the rest
of the string; yield `none` (NaN) when no digit is read.  (The automatic
hexadecimal radix for `0x` prefixes is outside the inputs this service
receives and is not modelled.) -/
def jsParseIntChars (l : List Char) : Option Int :=
  let l := l.dropWhile Char.isWhitespace
  let p := signSplit l
  let ds := p.2.takeWhile Char.isDigit
  if ds.isEmpty then none
  else some (p.1 * (digitsVal ds : Int))

/-- JS `parseInt` on a whole string. -/
def jsParseInt (s : String) : Option Int := jsParseIntChars s.data

/-- JS `Number(s)`: after trimming whitespace an empty string converts to
`0`; otherwise the whole remaining string must be a signed decimal
numeral, else the result is NaN (`none`).  (Fractional, exponent and hex
forms are not modelled: the ids this service compares against are
integers.) -/
def jsNumberChars (l : List Char) : Option Int :=
  let t := trimChars l
  if t.isEmpty then some 0
  else
    let p := signSplit t
    if !p.2.isEmpty && p.2.all Char.isDigit then some (p.1 * (digitsVal p.2 : Int))
    else none

/-- JS `Number` on a whole string. -/
def jsNumber (s : String) : Option Int := jsNumberChars s.data

/-- `s.split(",")` from `index.js` lines 79 and 122. -/
def splitCommaAux : List Char → List Char → List String
  | [], acc => [String.mk acc.reverse]
  | c :: rest, acc =>
      if c = ',' then String.mk acc.reverse :: splitCommaAux rest []
      else splitCommaAux rest (c :: acc)

/-- Split a string on commas (JS `split(',')`: no trimming, empty pieces kept). -/
def splitComma (s : String) : List String := splitCommaAux s.data []

/-- `parseInt(q) || default` (lines 22-23 and 72-73): an absent parameter,
an unparseable one (NaN) and a parsed value of `0` are all falsy and fall
back to the default; any other parsed value — negative ones included — is
kept. -/
def resolveParam (q : Option String) (d : Int) : Int :=
  match q with
  | none => d
  | some s =>
      match jsParseInt s with
      | none => d
      | some n => if n = 0 then d else n

/-- `Math.ceil(t / l)` for integer `t` and nonzero integer `l` (lines 37
and 106).  For `0 ≤ l` the ceiling of `t / l` is `-((-t) / l)` with
Euclidean division; for `l < 0` Euclidean division itself rounds up.  The
handlers never reach `l = 0`: a `limit` of `0` is falsy and resolves to
`20`. -/
def jsCeilDiv (t l : Int) : Int :=
  if 0 ≤ l then -((-t) / l) else t / l

/-- The four-language name object required by the schema (spec §3). -/
structure Name where
  english : String
  french : String
  japanese : String
  chinese : String
deriving DecidableEq

/-- The six battle statistics of the `base` object (spec §3). -/
structure BaseStats where
  HP : Int
  Attack : Int
  Defense : Int
  SpecialAttack : Int
  SpecialDefense : Int
  Speed : Int
deriving DecidableEq

/-- One catalog record. -/
structure Pokemon where
  id : Int
  name : Name
  type : List String
  base : BaseStats
  image : String
deriving DecidableEq

/-- Projection returned by `GET /pokemon/list-all`
(`.select('id name.english type image')`, line 134). -/
structure PokemonSummary where
  id : Int
  nameEnglish : String
  type : List String
  image : String
deriving DecidableEq

/-- Body of a creation request (line 159): `{ name, type, base, image }`,
with `image` optional. -/
structure Payload where
  name : Name
  type : List String
  base : BaseStats
  image : Option String := none
deriving DecidableEq

/-- The pagination envelope (lines 32-38 and 101-107). -/
structure Envelope where
  pokemons : List Pokemon
  page : Int
  limit : Int
  total : Int
  totalPages : Int
deriving DecidableEq

/-- Outcome of a route handler: `ok` carries the JSON payload of a 200/201
response, `badRequest` a 400 with its message, `notFound` a 404, and
`serverError` a 500 raised by a failing store call. -/
inductive Response (α : Type)
  | ok (a : α)
  | badRequest (msg : String)
  | notFound
  | serverError
deriving DecidableEq

/-- Token of the modelled pattern language: `.` matches any character,
anything else matches itself (up to case, because the handler passes
`$options: 'i'`). -/
inductive RTok
  | dot
  | lit (c : Char)
deriving DecidableEq

/-- Classify one pattern character. -/
def tokOf (c : Char) : RTok := if c = '.' then RTok.dot else RTok.lit c

/-- Compile a raw search term into tokens, pairing each with a flag saying
whether it carries a postfix `*`.  This models only a fragment of the
store's PCRE engine reached through `$regex` (line 55): `.` and postfix
`*` act as metacharacters and every other character as a literal.  The
fragment is faithful exactly on patterns whose characters are the two
modelled metacharacters or non-special characters; the engine's further
metacharacters (plus, question mark, vertical bar, brackets, braces,
backslash, caret, dollar) are not modelled, and patterns containing them
— including invalid patterns such as an unmatched parenthesis, on which
the store raises — are outside the fragment.  Theorems that equate
matching with substring search therefore restrict their terms with
`noMeta`, which excludes every PCRE metacharacter. -/
def parseRegex : List Char → List (RTok × Bool)
  | [] => []
  | c :: rest =>
      match rest with
      | [] => [(tokOf c, false)]
      | d :: rest2 =>
          if d = '*' then (tokOf c, true) :: parseRegex rest2
          else (tokOf c, false) :: parseRegex (d :: rest2)

/-- Case-insensitive single-token match (`$options: 'i'`). -/
def tokMatch : RTok → Char → Bool
  | RTok.dot, _ => true
  | RTok.lit c, d => c.toLower == d.toLower

/-- Kleene closure of one token around a continuation `k`: succeed if the
continuation succeeds after the starred token consumed any number of
leading characters. -/
def matchStar (t : RTok) (k : List Char → Bool) : List Char → Bool
  | [] => k []
  | c :: cs => k (c :: cs) || (tokMatch t c && matchStar t k cs)

/-- Match a token list against a prefix of the text, then hand the rest to
the continuation `k`. -/
def reMatchK : List (RTok × Bool) → (List Char → Bool) → List Char → Bool
  | [], k, s => k s
  | (t, false) :: rest, k, s =>
      match s with
      | [] => false
      | c :: cs => tokMatch t c && reMatchK rest k cs
  | (t, true) :: rest, k, s => matchStar t (reMatchK rest k) s

/-- The tokens match a prefix of the text. -/
def reMatch (toks : List (RTok × Bool)) (s : List Char) : Bool :=
  reMatchK toks (fun _ => true) s

/-- Unanchored search, as the store's `$regex` performs: the tokens match
starting at some position of the text. -/
def reFind (toks : List (RTok × Bool)) : List Char → Bool
  | [] => reMatch toks []
  | c :: cs => reMatch toks (c :: cs) || reFind toks cs

/-- `{ field: { $regex: pattern, $options: 'i' } }` on one string field. -/
def regexTest (pattern text : String) : Bool :=
  reFind (parseRegex pattern.data) text.data

/-- The `$or` predicate built by `GET /pokemon/search` (lines 53-60). -/
def searchMatches (term : String) (p : Pokemon) : Bool :=
  regexTest term p.name.english || regexTest term p.name.french ||
  regexTest term p.name.japanese || regexTest term p.name.chinese

/-- A numeric value as the store receives it from `Number(...)`: a real
number or NaN. -/
inductive JsNum
  | num (n : Int)
  | nan
deriving DecidableEq

/-- `Number(s)` as a `JsNum`. -/
def jsNumberOf (s : String) : JsNum :=
  match jsNumber s with
  | some n => JsNum.num n
  | none => JsNum.nan

/-- The store's comparison on numbers.  In MongoDB's BSON comparison
order `NaN` compares below every number (and equal to itself), so
`mongoLe a b` says `a` sorts no higher than `b`. -/
def mongoLe : JsNum → JsNum → Bool
  | JsNum.nan, _ => true
  | JsNum.num _, JsNum.nan => false
  | JsNum.num a, JsNum.num b => a ≤ b

/-- The `{ $gte?, $lte? }` object built for one statistic (lines 88-91). -/
structure RangeClause where
  gte : Option JsNum := none
  lte : Option JsNum := none
deriving DecidableEq

/-- Lines 87-92: a clause is built as soon as either bound is present, and
each present bound is converted with `Number(...)`. -/
def buildClause (minV maxV : Option String) : Option RangeClause :=
  if minV.isSome || maxV.isSome then
    some { gte := minV.map jsNumberOf, lte := maxV.map jsNumberOf }
  else none

/-- Raw query parameters of `GET /pokemon/filter` (line 69). -/
structure FilterQuery where
  types : Option String := none
  minHP : Option String := none
  maxHP : Option String := none
  minAttack : Option String := none
  maxAttack : Option String := none
  minDefense : Option String := none
  maxDefense : Option String := none
  minSpecialAttack : Option String := none
  maxSpecialAttack : Option String := none
  minSpecialDefense : Option String := none
  maxSpecialDefense : Option String := none
  minSpeed : Option String := none
  maxSpeed : Option String := none
  page : Option String := none
  limit : Option String := none
deriving DecidableEq

/-- The filter document assembled by lines 76-93: an optional `$in` list
of types and one optional range clause per `base.<stat>` key. -/
structure MongoFilter where
  types : Option (List String) := none
  HP : Option RangeClause := none
  Attack : Option RangeClause := none
  Defense : Option RangeClause := none
  SpecialAttack : Option RangeClause := none
  SpecialDefense : Option RangeClause := none
  Speed : Option RangeClause := none
deriving DecidableEq

/-- Lines 76-93 of `index.js`. -/
def buildFilter (q : FilterQuery) : MongoFilter :=
  { types :=
      match q.types with
      | some s => some (splitComma s)
      | none => none
    HP := buildClause q.minHP q.maxHP
    Attack := buildClause q.minAttack q.maxAttack
    Defense := buildClause q.minDefense q.maxDefense
    SpecialAttack := buildClause q.minSpecialAttack q.maxSpecialAttack
    SpecialDefense := buildClause q.minSpecialDefense q.maxSpecialDefense
    Speed := buildClause q.minSpeed q.maxSpeed }

/-- Evaluate one optional range clause at a record's statistic value,
using the store's comparison. -/
def rangeOk (c : Option RangeClause) (v : Int) : Bool :=
  match c with
  | none => true
  | some c =>
      (match c.gte with
       | none => true
       | some b => mongoLe b (JsNum.num v)) &&
      (match c.lte with
       | none => true
       | some b => mongoLe (JsNum.num v) b)

/-- `{ type: { $in: l } }` on an array field: at least one element of the
record's `type` array is in the requested list. -/
def typeOk (ts : Option (List String)) (p : Pokemon) : Bool :=
  match ts with
  | none => true
  | some l => p.type.any (fun t => l.contains t)

/-- A record matches the assembled filter document (clauses on distinct
keys combine conjunctively). -/
def matchesFilter (f : MongoFilter) (p : Pokemon) : Bool :=
  typeOk f.types p &&
  rangeOk f.HP p.base.HP &&
  rangeOk f.Attack p.base.Attack &&
  rangeOk f.Defense p.base.Defense &&
  rangeOk f.SpecialAttack p.base.SpecialAttack &&
  rangeOk f.SpecialDefense p.base.SpecialDefense &&
  rangeOk f.Speed p.base.Speed

/-- Ascending order on records by `id` (`.sort({ id: 1 })`). -/
def idLe (a b : Pokemon) : Prop := a.id ≤ b.id

/-- Descending order on records by `id` (`.sort({ id: -1 })`). -/
def idGe (a b : Pokemon) : Prop := b.id ≤ a.id

instance idLeDecidable : DecidableRel idLe := fun a b => Int.decLe a.id b.id

instance idGeDecidable : DecidableRel idGe := fun a b => Int.decLe b.id a.id

instance idLeTotal : IsTotal Pokemon idLe := ⟨fun a b => Int.le_total a.id b.id⟩

instance idGeTotal : IsTotal Pokemon idGe := ⟨fun a b => Int.le_total b.id a.id⟩

instance idLeTrans : IsTrans Pokemon idLe := ⟨fun _ _ _ h h₂ => le_trans h h₂⟩

instance idGeTrans : IsTrans Pokemon idGe := ⟨fun _ _ _ h h₂ => le_trans h₂ h⟩

/-- `.sort({ id: 1 })`: the store returns the matching documents in a
stable order of ascending `id`. -/
def sortById (l : List Pokemon) : List Pokemon := List.insertionSort idLe l

/-- `.sort({ id: -1 })`: stable descending order of `id`. -/
def sortByIdDesc (l : List Pokemon) : List Pokemon := List.insertionSort idGe l

/-- A record list is in ascending `id` order. -/
abbrev idSorted (l : List Pokemon) : Prop := l.Sorted idLe

/-- `.skip(skip).limit(limit)` applied to an already sorted result list.
The store rejects a negative skip (the handlers turn that into a 500
before this function is consulted, see `listHandler`), and treats a
negative limit as its absolute value with a single batch, so `skip` is
read with `toNat` and `limit` with `natAbs`. -/
def paginate (l : List Pokemon) (skip limit : Int) : List Pokemon :=
  (l.drop skip.toNat).take limit.natAbs

/-- The envelope assembled by `GET /pokemon` (lines 20-38): resolve `page`
and `limit`, `skip = (page - 1) * limit`, count all documents, return the
sorted page slice together with the resolved parameters. -/
def listEnvelope (store : List Pokemon) (pageQ limitQ : Option String) : Envelope :=
  let page := resolveParam pageQ 1
  let limit := resolveParam limitQ 20
  let skip := (page - 1) * limit
  let total : Int := store.length
  { pokemons := paginate (sortById store) skip limit
    page := page
    limit := limit
    total := total
    totalPages := jsCeilDiv total limit }

/-- `GET /pokemon`: a negative skip makes the store raise, which the
`catch` turns into a 500; otherwise the envelope is returned with 200. -/
def listHandler (store : List Pokemon) (pageQ limitQ : Option String) : Response Envelope :=
  if (resolveParam pageQ 1 - 1) * resolveParam limitQ 20 < 0 then Response.serverError
  else Response.ok (listEnvelope store pageQ limitQ)

/-- `GET /pokemon/search` (lines 46-66): a missing `name` parameter and an
empty one are both falsy and yield a 400; otherwise the `$or` regex
predicate selects records with no sort applied, so the store's natural
order is preserved. -/
def searchHandler (store : List Pokemon) (nameQ : Option String) : Response (List Pokemon) :=
  match nameQ with
  | none => Response.badRequest "Le paramètre \"name\" est requis"
  | some t =>
      if t = "" then Response.badRequest "Le paramètre \"name\" est requis"
      else Response.ok (store.filter (searchMatches t))

/-- The envelope assembled by `GET /pokemon/filter` (lines 70-107): same
pagination as the listing route, applied to the records matching the
assembled filter document. -/
def filterEnvelope (store : List Pokemon) (q : FilterQuery) : Envelope :=
  let page := resolveParam q.page 1
  let limit := resolveParam q.limit 20
  let skip := (page - 1) * limit
  let matching := store.filter (matchesFilter (buildFilter q))
  let total : Int := matching.length
  { pokemons := paginate (sortById matching) skip limit
    page := page
    limit := limit
    total := total
    totalPages := jsCeilDiv total limit }

/-- `GET /pokemon/filter`: the handler has no validation path of its own;
only a store failure (negative skip) leaves the 200 path. -/
def filterHandler (store : List Pokemon) (q : FilterQuery) : Response Envelope :=
  if (resolveParam q.page 1 - 1) * resolveParam q.limit 20 < 0 then Response.serverError
  else Response.ok (filterEnvelope store q)

/-- Line 122: `ids.split(',').map(Number).filter(n => !isNaN(n))`. -/
def parseIds (s : String) : List Int :=
  ((splitComma s).map jsNumber).filterMap id

/-- `GET /pokemon/by-ids` (lines 115-128): `!ids` is true for an absent
parameter and for the empty string, both yielding a 400; otherwise the
parsed id list feeds an `$in` query sorted by ascending id. -/
def byIdsHandler (store : List Pokemon) (idsQ : Option String) : Response (List Pokemon) :=
  match idsQ with
  | none => Response.badRequest "Le paramètre \"ids\" est requis"
  | some s =>
      if s = "" then Response.badRequest "Le paramètre \"ids\" est requis"
      else Response.ok (sortById (store.filter (fun p => (parseIds s).contains p.id)))

/-- The projection of line 134. -/
def project (p : Pokemon) : PokemonSummary :=
  { id := p.id, nameEnglish := p.name.english, type := p.type, image := p.image }

/-- `GET /pokemon/list-all` (lines 131-140). -/
def listAllHandler (store : List Pokemon) : List PokemonSummary :=
  (sortById store).map project

/-- `Pokemon.findOne({ id })` (line 145): first record in natural order
with the given logical id. -/
def getById (store : List Pokemon) (i : Int) : Option Pokemon :=
  store.find? (fun p => p.id == i)

/-- Lines 162-163: `findOne({}).sort({ id: -1 })` retrieves the record of
maximal id; the new id is that id plus one, or 1 on an empty store. -/
def newIdFor (store : List Pokemon) : Int :=
  match (sortByIdDesc store).head? with
  | some p => p.id + 1
  | none => 1

/-- The fixed image URL template of line 170. -/
def defaultImage (i : Int) : String :=
  "http://localhost:3000/assets/pokemons/" ++ toString i ++ ".png"

/-- `POST /pokemon` (lines 157-178): allocate the id, default the image
when the supplied one is falsy (absent or empty), append the new record to
the store, and return it.  Validation is the schema's business; see
`validPayload`. -/
def createPokemon (store : List Pokemon) (pl : Payload) : List Pokemon × Pokemon :=
  let newId := newIdFor store
  let img :=
    match pl.image with
    | some s => if s = "" then defaultImage newId else s
    | none => defaultImage newId
  let p : Pokemon := { id := newId, name := pl.name, type := pl.type, base := pl.base, image := img }
  (store ++ [p], p)

/-- Modelled from the spec: the schema module `./schema/pokemon.js` is
imported by `index.js` but is not among the source files.  Spec §3 and
§4.6 require the four name sub-fields (required strings, hence nonempty
under Mongoose's `required` check) and the six base statistics; in this
typed embedding the structure of `Payload` already enforces presence, so
the residual validity condition is that the required name strings are
nonempty and that a supplied image is a nonempty URL string. -/
abbrev validPayload (pl : Payload) : Prop :=
  pl.name.english ≠ "" ∧ pl.name.french ≠ "" ∧ pl.name.japanese ≠ "" ∧
  pl.name.chinese ≠ "" ∧ pl.image ≠ some ""

/-- `findOneAndDelete({ id })`: remove the first record in natural order
with the given id, returning the remaining store and the removed record. -/
def removeFirst : List Pokemon → Int → List Pokemon × Option Pokemon
  | [], _ => ([], none)
  | p :: rest, i =>
      if p.id = i then (rest, some p)
      else
        let r := removeFirst rest i
        (p :: r.1, r.2)

/-- `DELETE /pokemon/:id` (lines 200-212): 200 with the deleted record, or
404 leaving the store untouched. -/
def deleteHandler (store : List Pokemon) (i : Int) : List Pokemon × Response Pokemon :=
  match removeFirst store i with
  | (s, some p) => (s, Response.ok p)
  | (_, none) => (store, Response.notFound)

/-- Spec-side definition (§4.2, "the term is a case-insensitive substring
of at least one of its four name fields"): `a` occurs as a contiguous
sublist of `b`. -/
def isSubList (a : List Char) : List Char → Bool
  | [] => a.isEmpty
  | c :: rest => a.isPrefixOf (c :: rest) || isSubList a rest

/-- Spec-side: `t` is a case-insensitive substring of `s`. -/
def ciSub (t s : String) : Bool :=
  isSubList (t.data.map Char.toLower) (s.data.map Char.toLower)

/-- Spec-side: the term is a case-insensitive substring of at least one of
the four name fields. -/
def ciSubstringAny (t : String) (p : Pokemon) : Bool :=
  ciSub t p.name.english || ciSub t p.name.french ||
  ciSub t p.name.japanese || ciSub t p.name.chinese

/-- The term contains no character that is special in the store's PCRE
pattern syntax: dot, star, plus, question mark, vertical bar, the round
and square brackets, the curly braces, backslash, caret and dollar.  On
such a term the engine treats every character as a literal, and so does
the modelled matcher, so the fragment of `parseRegex` is faithful on
exactly this set of terms. -/
def noMeta (t : String) : Bool :=
  t.data.all (fun c => !(c == '.' || c == '*' || c == '+' || c == '?' || c == '|' ||
    c == '(' || c == ')' || c == '[' || c == ']' || c == '\x7b' || c == '\x7d' ||
    c == '\\' || c == '^' || c == '$'))

/-- A small concrete record used to exercise the handlers. -/
def mkPoke (i : Int) (nm : String) (hp : Int) : Pokemon :=
  { id := i
    name := { english := nm, french := nm, japanese := nm, chinese := nm }
    type := ["Normal"]
    base := { HP := hp, Attack := 1, Defense := 1, SpecialAttack := 1, SpecialDefense := 1, Speed := 1 }
    image := "img" }

/-- Fixture: id 1. -/
def pokeA : Pokemon := mkPoke 1 "Arbok" 30

/-- Fixture: id 2. -/
def pokeB : Pokemon := mkPoke 2 "Abra" 40

/-- Fixture: id 3. -/
def pokeC : Pokemon := mkPoke 3 "Onix" 50

/-- Fixture: id 0 (reachable through an update that rewrites `id`). -/
def pokeZ : Pokemon := mkPoke 0 "Zubat" 10

/-- Fixture with distinct language names. -/
def pikachu : Pokemon :=
  { id := 25
    name := { english := "Pikachu", french := "Pikachu", japanese := "ピカチュウ", chinese := "皮卡丘" }
    type := ["Electric"]
    base := { HP := 35, Attack := 55, Defense := 40, SpecialAttack := 50, SpecialDefense := 50, Speed := 90 }
    image := "img25" }

/-- Fixture payload for creation round trips. -/
def payloadA : Payload :=
  { name := { english := "Mew", french := "Mew", japanese := "ミュウ", chinese := "梦幻" }
    type := ["Psychic"]
    base := { HP := 100, Attack := 100, Defense := 100, SpecialAttack := 100, SpecialDefense := 100, Speed := 100 }
    image := none }

theorem sortById_sorted (l : List Pokemon) : (sortById l).Sorted idLe :=
  List.sorted_insertionSort idLe l

theorem sortById_perm (l : List Pokemon) : (sortById l).Perm l :=
  List.perm_insertionSort idLe l

theorem mem_sortById {p : Pokemon} {l : List Pokemon} : p ∈ sortById l ↔ p ∈ l :=
  (sortById_perm l).mem_iff

theorem sortByIdDesc_sorted (l : List Pokemon) : (sortByIdDesc l).Sorted idGe :=
  List.sorted_insertionSort idGe l

theorem sortByIdDesc_perm (l : List Pokemon) : (sortByIdDesc l).Perm l :=
  List.perm_insertionSort idGe l

theorem paginate_sorted {l : List Pokemon} (skip limit : Int) (h : l.Sorted idLe) :
    (paginate l skip limit).Sorted idLe :=
  List.Pairwise.sublist
    ((List.take_sublist _ _).trans (List.drop_sublist _ _)) h

theorem newIdFor_gt {store : List Pokemon} : ∀ p ∈ store, p.id < newIdFor store := by
  intro p hp
  have hp' : p ∈ sortByIdDesc store := (sortByIdDesc_perm store).mem_iff.mpr hp
  cases hl : sortByIdDesc store with
  | nil => rw [hl] at hp'; cases hp'
  | cons q tail =>
      have hsorted := sortByIdDesc_sorted store
      rw [hl] at hsorted hp'
      have hnew : newIdFor store = q.id + 1 := by
        unfold newIdFor
        rw [hl]
        rfl
      rw [hnew]
      rcases List.mem_cons.mp hp' with h | h
      · rw [h]; omega
      · have := List.rel_of_sorted_cons hsorted p h
        unfold idGe at this
        omega

theorem newIdFor_mem {store : List Pokemon} (h : store ≠ []) :
    ∃ p ∈ store, newIdFor store = p.id + 1 := by
  cases hl : sortByIdDesc store with
  | nil =>
      have : store = [] := by
        have hperm := sortByIdDesc_perm store
        rw [hl] at hperm
        exact hperm.symm.eq_nil
      exact absurd this h
  | cons q tail =>
      refine ⟨q, ?_, ?_⟩
      · exact (sortByIdDesc_perm store).mem_iff.mp (by rw [hl]; exact List.mem_cons_self q tail)
      · unfold newIdFor
        rw [hl]
        rfl

theorem getById_append_fresh (store : List Pokemon) (p : Pokemon) (i : Int)
    (hfresh : ∀ q ∈ store, q.id ≠ i) (hp : p.id = i) :
    getById (store ++ [p]) i = some p := by
  induction store with
  | nil =>
      unfold getById
      simp [List.find?, hp]
  | cons q rest ih =>
      have hq : q.id ≠ i := hfresh q (List.mem_cons_self q rest)
      have hrest : ∀ r ∈ rest, r.id ≠ i := fun r hr => hfresh r (List.mem_cons_of_mem q hr)
      unfold getById at ih ⊢
      rw [List.cons_append, List.find?_cons_of_neg]
      · exact ih hrest
      · simp [hq]

theorem removeFirst_not_found {store : List Pokemon} {i : Int}
    (h : ∀ p ∈ store, p.id ≠ i) : removeFirst store i = (store, none) := by
  induction store with
  | nil => rfl
  | cons q rest ih =>
      have hq : q.id ≠ i := h q (List.mem_cons_self q rest)
      have hrest := ih (fun r hr => h r (List.mem_cons_of_mem q hr))
      unfold removeFirst
      rw [if_neg hq, hrest]

theorem removeFirst_found {store : List Pokemon} {i : Int}
    (h : ∃ p ∈ store, p.id = i) :
    ∃ p s2, removeFirst store i = (s2, some p) ∧ p ∈ store ∧ p.id = i ∧
      s2.Sublist store ∧ s2.length + 1 = store.length := by
  induction store with
  | nil => rcases h with ⟨p, hp, _⟩; cases hp
  | cons q rest ih =>
      by_cases hq : q.id = i
      · exact ⟨q, rest, by unfold removeFirst; rw [if_pos hq],
          List.mem_cons_self q rest, hq, List.sublist_cons_self q rest, rfl⟩
      · rcases h with ⟨p, hp, hpi⟩
        rcases List.mem_cons.mp hp with rfl | hmem
        · exact absurd hpi hq
        · rcases ih ⟨p, hmem, hpi⟩ with ⟨p', s2, heq, hmem', hpi', hsub, hlen⟩
          refine ⟨p', q :: s2, ?_, List.mem_cons_of_mem q hmem', hpi', ?_, ?_⟩
          · unfold removeFirst
            rw [if_neg hq, heq]
          · exact List.Sublist.cons₂ q hsub
          · simp [List.length_cons]
            omega

theorem parseRegex_noMeta (l : List Char) (h : ∀ c ∈ l, c ≠ '.' ∧ c ≠ '*') :
    parseRegex l = l.map (fun c => (RTok.lit c, false)) := by
  induction l with
  | nil => rfl
  | cons c rest ih =>
      have hc : c ≠ '.' := (h c (List.mem_cons_self c rest)).1
      have htok : tokOf c = RTok.lit c := if_neg hc
      cases rest with
      | nil => simp [parseRegex, htok]
      | cons d rest2 =>
          have hd : d ≠ '*' := (h d (List.mem_cons_of_mem c (List.mem_cons_self d rest2))).2
          have hrest : ∀ x ∈ d :: rest2, x ≠ '.' ∧ x ≠ '*' :=
            fun x hx => h x (List.mem_cons_of_mem c hx)
          simp only [parseRegex, if_neg hd, htok, List.map_cons]
          rw [ih hrest]
          simp

theorem reMatchK_lits (l : List Char) : ∀ s : List Char,
    reMatchK (l.map fun c => (RTok.lit c, false)) (fun _ => true) s =
      (l.map Char.toLower).isPrefixOf (s.map Char.toLower) := by
  induction l with
  | nil => intro s; simp [reMatchK, List.isPrefixOf]
  | cons c l' ih =>
      intro s
      cases s with
      | nil => simp [reMatchK, List.isPrefixOf]
      | cons d s' => simp [reMatchK, List.isPrefixOf, tokMatch, ih]

theorem reFind_lits (l : List Char) : ∀ s : List Char,
    reFind (l.map fun c => (RTok.lit c, false)) s =
      isSubList (l.map Char.toLower) (s.map Char.toLower) := by
  intro s
  induction s with
  | nil =>
      cases l with
      | nil => rfl
      | cons c l' => simp [reFind, reMatch, reMatchK, isSubList, List.isPrefixOf]
  | cons d s' ih =>
      simp only [reFind, reMatch, reMatchK_lits, isSubList, List.map_cons, ih]

/-- C6: on every creation the allocated id is the current maximum id in
the store plus one, or 1 when the store is empty; in particular a first
create on an empty store allocates id 1 and an immediately following
create allocates id 2. -/
theorem idAllocator_max_plus_one (store : List Pokemon) :
    (store = [] → newIdFor store = 1) ∧
    (∀ p ∈ store, p.id < newIdFor store) ∧
    (store ≠ [] → ∃ p ∈ store, newIdFor store = p.id + 1) ∧
    (∀ pl pl2 : Payload, (createPokemon [] pl).2.id = 1 ∧
      (createPokemon (createPokemon [] pl).1 pl2).2.id = 2) := by
  refine ⟨?_, newIdFor_gt, newIdFor_mem, ?_⟩
  · intro h
    subst h
    rfl
  · intro pl pl2
    exact ⟨rfl, rfl⟩

/-- Witness for C6 at concrete stores. -/
theorem idAllocator_max_plus_one_witness :
    newIdFor [] = 1 ∧ ∃ p ∈ [pokeA, pokeB], newIdFor [pokeA, pokeB] = p.id + 1 :=
  ⟨(idAllocator_max_plus_one []).1 rfl,
   (idAllocator_max_plus_one [pokeA, pokeB]).2.2.1 (by decide)⟩

/-- C8: creating a record from a valid payload and fetching the returned
id yields exactly the created record; its fields equal the payload's, the
image defaults to the fixed URL template at the allocated id when it was
omitted, and the allocated id is the previous maximum plus one (1 on an
empty store). -/
theorem create_roundTrip (store : List Pokemon) (pl : Payload) (hv : validPayload pl) :
    getById (createPokemon store pl).1 (createPokemon store pl).2.id =
      some (createPokemon store pl).2 ∧
    (createPokemon store pl).2.name = pl.name ∧
    (createPokemon store pl).2.type = pl.type ∧
    (createPokemon store pl).2.base = pl.base ∧
    (pl.image = none →
      (createPokemon store pl).2.image = defaultImage (createPokemon store pl).2.id) ∧
    (∀ s, pl.image = some s → (createPokemon store pl).2.image = s) ∧
    (store = [] → (createPokemon store pl).2.id = 1) ∧
    (∀ q ∈ store, q.id < (createPokemon store pl).2.id) ∧
    (store ≠ [] → ∃ q ∈ store, (createPokemon store pl).2.id = q.id + 1) := by
  have hfresh : ∀ q ∈ store, q.id ≠ newIdFor store :=
    fun q hq => ne_of_lt (newIdFor_gt q hq)
  refine ⟨?_, rfl, rfl, rfl, ?_, ?_, ?_, ?_, ?_⟩
  · exact getById_append_fresh store (createPokemon store pl).2 (newIdFor store) hfresh rfl
  · intro h
    simp [createPokemon, h]
  · intro s hs
    have hne : s ≠ "" := by
      intro hc
      exact hv.2.2.2.2 (by rw [hs, hc])
    simp [createPokemon, hs, hne]
  · intro h
    subst h
    rfl
  · exact newIdFor_gt
  · exact newIdFor_mem

/-- Witness for C8: round trip through an empty store with `payloadA`. -/
theorem create_roundTrip_witness :
    validPayload payloadA ∧
    getById (createPokemon [] payloadA).1 (createPokemon [] payloadA).2.id =
      some (createPokemon [] payloadA).2 :=
  ⟨by decide, (create_roundTrip [] payloadA (by decide)).1⟩

/-- C9: deleting an existing id removes exactly that record (the first
with the id in natural order) and returns it; deleting a missing id
returns the 404 outcome and leaves the store unchanged. -/
theorem delete_spec (store : List Pokemon) (i : Int) :
    ((∀ p ∈ store, p.id ≠ i) → deleteHandler store i = (store, Response.notFound)) ∧
    ((∃ p ∈ store, p.id = i) → ∃ p s2, deleteHandler store i = (s2, Response.ok p) ∧
      p ∈ store ∧ p.id = i ∧ s2.Sublist store ∧ s2.length + 1 = store.length) := by
  constructor
  · intro h
    unfold deleteHandler
    rw [removeFirst_not_found h]
  · intro h
    rcases removeFirst_found h with ⟨p, s2, heq, hmem, hpi, hsub, hlen⟩
    exact ⟨p, s2, by unfold deleteHandler; rw [heq], hmem, hpi, hsub, hlen⟩

/-- Witness for C9: `DELETE /pokemon/999` on a store without id 999. -/
theorem delete_spec_witness :
    deleteHandler [pokeA] 999 = ([pokeA], Response.notFound) :=
  (delete_spec [pokeA] 999).1 (by decide)

/-- C10: an empty token of the comma-split ids list converts to the
number 0 and stays in the queried id set, so `ids=1,,3` queries ids
`[1, 0, 3]` and a record with id 0 is included in the result. -/
theorem byIds_emptyToken_zero (store : List Pokemon) (p : Pokemon)
    (hmem : p ∈ store) (hid : p.id = 0) :
    parseIds "1,,3" = [1, 0, 3] ∧
    ∃ l, byIdsHandler store (some "1,,3") = Response.ok l ∧ p ∈ l := by
  refine ⟨by decide, ?_⟩
  refine ⟨sortById (store.filter (fun q => (parseIds "1,,3").contains q.id)), rfl, ?_⟩
  rw [mem_sortById, List.mem_filter]
  refine ⟨hmem, ?_⟩
  rw [hid]
  decide

/-- Witness for C10 at a concrete store holding a record with id 0. -/
theorem byIds_emptyToken_zero_witness :
    parseIds "1,,3" = [1, 0, 3] ∧
    ∃ l, byIdsHandler [pokeZ, pokeA] (some "1,,3") = Response.ok l ∧ pokeZ ∈ l :=
  byIds_emptyToken_zero [pokeZ, pokeA] pokeZ (by decide) (by decide)

/-- C1 counterexample: a non-numeric statistic bound does not make the
filter route answer 400.  `minHP=abc` is coerced by `Number` into a NaN
`$gte` clause, which under the store's comparison matches every record,
so the request succeeds with a full 200 envelope; symmetrically a NaN
`$lte` clause matches no record. -/
theorem filter_nonNumericBound_not_rejected_cex :
    jsNumber "abc" = none ∧
    filterHandler [pikachu] { minHP := some "abc" } =
      Response.ok { pokemons := [pikachu], page := 1, limit := 20, total := 1, totalPages := 1 } ∧
    (filterEnvelope [pikachu] { maxHP := some "abc" }).total = 0 := by decide

/-- C1 (amended): every present bound is parsed with `Number`, but a bound
whose value is not numeric is NOT rejected with a validation error; the
request succeeds and the bound becomes a NaN clause that compares below
every number in the store's order, so a non-numeric min bound matches
every record and a non-numeric max bound matches none. -/
theorem filter_nonNumericBounds_coerced (store : List Pokemon) (s : String)
    (hs : jsNumber s = none) :
    filterHandler store { minHP := some s } =
      Response.ok (filterEnvelope store { minHP := some s }) ∧
    (filterEnvelope store { minHP := some s }).total = store.length ∧
    (filterEnvelope store { maxHP := some s }).total = 0 ∧
    (∀ v : Int, mongoLe (jsNumberOf s) (JsNum.num v) = true) ∧
    (∀ v : Int, mongoLe (JsNum.num v) (jsNumberOf s) = false) := by
  have hnan : jsNumberOf s = JsNum.nan := by
    unfold jsNumberOf
    rw [hs]
  have hmin : ∀ p, matchesFilter (buildFilter { minHP := some s }) p = true := by
    intro p
    simp [matchesFilter, buildFilter, buildClause, rangeOk, typeOk, hnan, mongoLe]
  have hmax : ∀ p, matchesFilter (buildFilter { maxHP := some s }) p = false := by
    intro p
    simp [matchesFilter, buildFilter, buildClause, rangeOk, typeOk, hnan, mongoLe]
  refine ⟨?_, ?_, ?_, fun v => by rw [hnan]; rfl, fun v => by rw [hnan]; rfl⟩
  · unfold filterHandler
    rw [if_neg (by simp [resolveParam])]
  · simp only [filterEnvelope]
    rw [List.filter_eq_self.mpr (fun a _ => hmin a)]
  · simp only [filterEnvelope]
    rw [List.filter_eq_nil_iff.mpr (fun a _ => by rw [hmax a]; exact Bool.false_ne_true)]
    rfl

/-- Witness for C1 (amended) at the non-numeric bound `abc`. -/
theorem filter_nonNumericBounds_coerced_witness :
    filterHandler [pokeA, pokeB] { minHP := some "abc" } =
      Response.ok (filterEnvelope [pokeA, pokeB] { minHP := some "abc" }) ∧
    (filterEnvelope [pokeA, pokeB] { minHP := some "abc" }).total = 2 :=
  ⟨(filter_nonNumericBounds_coerced [pokeA, pokeB] "abc" (by decide)).1,
   (filter_nonNumericBounds_coerced [pokeA, pokeB] "abc" (by decide)).2.1⟩

/-- C2 counterexample: the term is handed to the store's pattern engine
unescaped, so `.` keeps its any-character meaning: searching for `.`
returns Pikachu although `.` is not a substring of any of its four
names. -/
theorem search_dot_metachar_cex :
    searchHandler [pikachu] (some ".") = Response.ok [pikachu] ∧
    searchMatches "." pikachu = true ∧
    ciSubstringAny "." pikachu = false := by decide

/-- C2 (amended): the search term is used as a pattern, not escaped to a
literal, so characters with pattern meaning act as pattern syntax (and a
term that is not a valid pattern at all makes the store raise).  For
terms free of every PCRE metacharacter — where the engine, like the
modelled matcher, reads each character literally — a record matches iff
the term is a case-insensitive substring of at least one of the four
name fields. -/
theorem search_literal_iff_substring (t : String) (p : Pokemon) (h : noMeta t = true) :
    searchMatches t p = ciSubstringAny t p := by
  have h' : ∀ c ∈ t.data, c ≠ '.' ∧ c ≠ '*' := by
    intro c hc
    have hx := List.all_eq_true.mp h c hc
    simp only [Bool.not_eq_eq_eq_not, Bool.not_true, Bool.or_eq_false_iff, beq_eq_false_iff_ne,
      ne_eq] at hx
    refine ⟨?_, ?_⟩ <;> tauto
  have hre : ∀ s : String, regexTest t s = ciSub t s := by
    intro s
    unfold regexTest ciSub
    rw [parseRegex_noMeta t.data h', reFind_lits]
  unfold searchMatches ciSubstringAny
  rw [hre, hre, hre, hre]

/-- Witness for C2 (amended): the metacharacter-free term `char` against
a Charmander record. -/
theorem search_literal_iff_substring_witness :
    noMeta "char" = true ∧
    searchMatches "char" (mkPoke 4 "Charmander" 39) =
      ciSubstringAny "char" (mkPoke 4 "Charmander" 39) :=
  ⟨by decide, search_literal_iff_substring "char" (mkPoke 4 "Charmander" 39) (by decide)⟩

theorem resolveParam_ne_zero (q : Option String) (d : Int) (hd : d ≠ 0) :
    resolveParam q d ≠ 0 := by
  unfold resolveParam
  split
  · exact hd
  · split
    · exact hd
    · split
      · exact hd
      · assumption

theorem jsCeilDiv_nonpos (t l : Int) (ht : 0 ≤ t) (hl : l < 0) : jsCeilDiv t l ≤ 0 := by
  unfold jsCeilDiv
  rw [if_neg (by omega)]
  exact Int.ediv_nonpos ht (le_of_lt hl)

/-- C3 counterexample: with three records and `limit=-2` the listing
route answers 200 and `totalPages = ceil(3 / -2) = -1`, not the 0 the
claim states. -/
theorem totalPages_negative_limit_cex :
    listHandler [pokeA, pokeB, pokeC] none (some "-2") =
      Response.ok { pokemons := [pokeA, pokeB], page := 1, limit := -2,
                    total := 3, totalPages := -1 } ∧
    (-1 : Int) ≠ 0 := by decide

/-- C3 (amended): the resolved limit is never zero (a `limit` of 0 is
falsy and falls back to 20), so the `totalPages` computation never
divides by zero; when the limit resolves to a negative number the
computation still succeeds but yields `ceil(total/limit) ≤ 0`, which is
negative — not 0 — whenever `|limit| ≤ total`. -/
theorem totalPages_limit_never_zero (store : List Pokemon) (pq lq : Option String)
    (fq : FilterQuery) :
    (listEnvelope store pq lq).limit ≠ 0 ∧
    ((listEnvelope store pq lq).limit < 0 → (listEnvelope store pq lq).totalPages ≤ 0) ∧
    (filterEnvelope store fq).limit ≠ 0 ∧
    ((filterEnvelope store fq).limit < 0 → (filterEnvelope store fq).totalPages ≤ 0) := by
  refine ⟨?_, ?_, ?_, ?_⟩
  · simp only [listEnvelope]
    exact resolveParam_ne_zero lq 20 (by omega)
  · simp only [listEnvelope]
    intro hl
    exact jsCeilDiv_nonpos _ _ (Int.natCast_nonneg _) hl
  · simp only [filterEnvelope]
    exact resolveParam_ne_zero fq.limit 20 (by omega)
  · simp only [filterEnvelope]
    intro hl
    exact jsCeilDiv_nonpos _ _ (Int.natCast_nonneg _) hl

/-- Witness for C3 (amended) at `limit=-2` over one record. -/
theorem totalPages_limit_never_zero_witness :
    (listEnvelope [pokeA] none (some "-2")).limit ≠ 0 ∧
    (listEnvelope [pokeA] none (some "-2")).totalPages ≤ 0 :=
  ⟨(totalPages_limit_never_zero [pokeA] none (some "-2") {}).1,
   (totalPages_limit_never_zero [pokeA] none (some "-2") {}).2.1 (by decide)⟩

/-- C4 counterexample: a negative `page` or `limit` parameter is truthy
after `parseInt` and is kept as-is instead of falling back to the
defaults 1 and 20. -/
theorem pagination_negative_param_kept_cex :
    (listEnvelope [] (some "-5") none).page = -5 ∧
    (listEnvelope [] (some "-5") none).page ≠ 1 ∧
    (listEnvelope [] none (some "-7")).limit = -7 ∧
    (listEnvelope [] none (some "-7")).limit ≠ 20 ∧
    (filterEnvelope [] { page := some "-5" }).page = -5 := by decide

/-- C4 (amended): `page` and `limit` default to 1 and 20 when the
parameter is absent, unparseable, or parses to 0; any other parsed value
— negative values included — is kept.  `skip = (page-1)*limit` over the
resolved values: for resolved page ≥ 1 and limit ≥ 1 the returned slice
drops `(page-1)*limit` of the id-sorted records and takes `limit`. -/
theorem pagination_resolution (d : Int) (s : String) (n : Int)
    (store : List Pokemon) (pq lq : Option String) :
    (resolveParam none d = d) ∧
    (jsParseInt s = none → resolveParam (some s) d = d) ∧
    (jsParseInt s = some 0 → resolveParam (some s) d = d) ∧
    (jsParseInt s = some n → n ≠ 0 → resolveParam (some s) d = n) ∧
    ((listEnvelope store pq lq).page = resolveParam pq 1) ∧
    ((listEnvelope store pq lq).limit = resolveParam lq 20) ∧
    (1 ≤ resolveParam pq 1 → 1 ≤ resolveParam lq 20 →
      (listEnvelope store pq lq).pokemons =
        ((sortById store).drop ((resolveParam pq 1 - 1) * resolveParam lq 20).toNat).take
          (resolveParam lq 20).toNat) := by
  refine ⟨rfl, ?_, ?_, ?_, rfl, rfl, ?_⟩
  · intro h
    simp [resolveParam, h]
  · intro h
    simp [resolveParam, h]
  · intro h hn
    simp [resolveParam, h, hn]
  · intro hp hl
    simp only [listEnvelope, paginate]
    have : (resolveParam lq 20).natAbs = (resolveParam lq 20).toNat := by omega
    rw [this]

/-- Witness for C4 (amended) covering each defaulting rule and the slice
formula. -/
theorem pagination_resolution_witness :
    resolveParam (some "abc") 1 = 1 ∧
    resolveParam (some "0") 20 = 20 ∧
    resolveParam (some "-5") 1 = -5 ∧
    (listEnvelope [pokeB, pokeA, pokeC] (some "2") (some "2")).pokemons =
      ((sortById [pokeB, pokeA, pokeC]).drop
        ((resolveParam (some "2") 1 - 1) * resolveParam (some "2") 20).toNat).take
        (resolveParam (some "2") 20).toNat :=
  ⟨(pagination_resolution 1 "abc" 0 [] none none).2.1 (by decide),
   (pagination_resolution 20 "0" 0 [] none none).2.2.1 (by decide),
   (pagination_resolution 1 "-5" (-5) [] none none).2.2.2.1 (by decide) (by decide),
   (pagination_resolution 1 "x" 0 [pokeB, pokeA, pokeC] (some "2") (some "2")).2.2.2.2.2.2
     (by decide) (by decide)⟩

/-- C5 counterexample: the search route applies no sort, so when two
matching records sit in the store in non-ascending id order (reachable,
since an update may rewrite `id`), the response preserves that order and
is not sorted by id. -/
theorem search_results_unsorted_cex :
    searchHandler [pokeB, pokeA] (some "a") = Response.ok [pokeB, pokeA] ∧
    ¬ idSorted [pokeB, pokeA] := by decide

/-- C5 (amended): the paginated listing, filter, by-ids and list-all
endpoints do return their records sorted by id ascending, but the search
endpoint applies no sort: it returns the matching records in the store's
natural order (a sublist of the store), so its output order is only as
deterministic as the store order itself. -/
theorem listing_sort_guarantees (store : List Pokemon) (pq lq : Option String)
    (fq : FilterQuery) (s t : String) :
    idSorted (listEnvelope store pq lq).pokemons ∧
    idSorted (filterEnvelope store fq).pokemons ∧
    (s ≠ "" → ∃ l, byIdsHandler store (some s) = Response.ok l ∧ idSorted l) ∧
    (listAllHandler store).Sorted (fun a b => a.id ≤ b.id) ∧
    (t ≠ "" → searchHandler store (some t) = Response.ok (store.filter (searchMatches t)) ∧
      (store.filter (searchMatches t)).Sublist store) := by
  refine ⟨?_, ?_, ?_, ?_, ?_⟩
  · exact paginate_sorted _ _ (sortById_sorted store)
  · exact paginate_sorted _ _ (sortById_sorted _)
  · intro hs
    refine ⟨sortById (store.filter (fun p => (parseIds s).contains p.id)), ?_, sortById_sorted _⟩
    simp only [byIdsHandler]
    rw [if_neg hs]
  · exact List.Pairwise.map project (fun a b h => h) (sortById_sorted store)
  · intro ht
    constructor
    · simp only [searchHandler]
      rw [if_neg ht]
    · exact List.filter_sublist store

/-- Witness for C5 (amended) at a concrete store and queries. -/
theorem listing_sort_guarantees_witness :
    (∃ l, byIdsHandler [pokeB, pokeA] (some "1,2") = Response.ok l ∧ idSorted l) ∧
    (searchHandler [pokeB, pokeA] (some "a") =
        Response.ok ([pokeB, pokeA].filter (searchMatches "a")) ∧
      ([pokeB, pokeA].filter (searchMatches "a")).Sublist [pokeB, pokeA]) :=
  ⟨(listing_sort_guarantees [pokeB, pokeA] none none {} "1,2" "a").2.2.1 (by decide),
   (listing_sort_guarantees [pokeB, pokeA] none none {} "1,2" "a").2.2.2.2 (by decide)⟩

/-- C7 counterexample: the empty-string `ids=` value is falsy exactly
like an absent parameter, so it is rejected with 400 instead of yielding
an empty result set. -/
theorem byIds_empty_param_rejected_cex :
    byIdsHandler [] (some "") = Response.badRequest "Le paramètre \"ids\" est requis" ∧
    byIdsHandler [] (some "") ≠ Response.ok [] := by decide

/-- C7 (amended): tokens of the comma-separated ids value are each parsed
with `Number`; tokens that fail to parse are silently discarded
(`ids=1,abc,3` queries ids 1 and 3 only); matching records come back
sorted ascending by id; an entirely non-numeric value yields an empty
result; but both an absent `ids` parameter and an empty-string one are
falsy and rejected with the same 400. -/
theorem byIds_parsing (store : List Pokemon) (s : String) :
    byIdsHandler store none = Response.badRequest "Le paramètre \"ids\" est requis" ∧
    byIdsHandler store (some "") = Response.badRequest "Le paramètre \"ids\" est requis" ∧
    (s ≠ "" → ∃ l, byIdsHandler store (some s) = Response.ok l ∧ idSorted l ∧
      (∀ p, p ∈ l ↔ p ∈ store ∧ (parseIds s).contains p.id = true)) ∧
    (s ≠ "" → parseIds s = [] → byIdsHandler store (some s) = Response.ok []) ∧
    parseIds "1,abc,3" = [1, 3] := by
  refine ⟨rfl, rfl, ?_, ?_, by decide⟩
  · intro hs
    refine ⟨sortById (store.filter (fun p => (parseIds s).contains p.id)), ?_, sortById_sorted _, ?_⟩
    · simp only [byIdsHandler]
      rw [if_neg hs]
    · intro p
      rw [mem_sortById, List.mem_filter]
  · intro hs he
    simp only [byIdsHandler]
    rw [if_neg hs, he]
    simp
    rfl

/-- Witness for C7 (amended) on the partially malformed list `1,abc,3`. -/
theorem byIds_parsing_witness :
    ∃ l, byIdsHandler [pokeC, pokeA, pokeB] (some "1,abc,3") = Response.ok l ∧ idSorted l ∧
      (∀ p, p ∈ l ↔ p ∈ [pokeC, pokeA, pokeB] ∧ (parseIds "1,abc,3").contains p.id = true) :=
  (byIds_parsing [pokeC, pokeA, pokeB] "1,abc,3").2.2.1 (by decide)
